import Mathlib

/-!
Verification of the astra voice-memo pipeline.

This file gives a shallow embedding of the core pipeline of the repository:
the durable job-state ledger (`StateService` in `src/utils/state.ts`), the
discovery pass (`FileWatcher.watch`), the retry/backoff loops of the
network-bound services (transcription, journal formatting, organization),
the Notion sync with per-item validation, the per-day journal sync, the
intent router, and the orchestrating `VoiceMemoJob.processFile`.

Effectful collaborators (HTTP fetch, file system) are abstracted as injected
attempt outcomes; everything else follows the TypeScript sources line by
line.  Theorems at the end settle the specification claims.
-/

namespace Astra

/-! ## Association lists

JavaScript objects keyed by strings, with insertion-order preservation:
`alookup` models property read, `aset` models property assignment
(updating in place when the key exists, appending otherwise). -/

def alookup {α : Type} (m : List (String × α)) (k : String) : Option α :=
  match m with
  | [] => none
  | (k', v) :: rest => if k' = k then some v else alookup rest k

def aset {α : Type} (m : List (String × α)) (k : String) (v : α) :
    List (String × α) :=
  match m with
  | [] => [(k, v)]
  | (k', v') :: rest =>
    if k' = k then (k, v) :: rest else (k', v') :: aset rest k v

/-! ## Character-level string primitives

The JavaScript string operations the sources use (`split`, `trim`,
`toLowerCase`, `includes`), implemented by structural recursion over the
character list (the transcripts and filenames involved are ASCII). -/

/-- `s.split(sep)` for a single-character separator. -/
def splitChar (sep : Char) : List Char → List (List Char)
  | [] => [[]]
  | c :: rest =>
    match splitChar sep rest with
    | [] => [[]]
    | h :: t => if c = sep then [] :: h :: t else (c :: h) :: t

/-- The ASCII portion of the JavaScript `\s` class (used by `trim` and the
routing regular expressions). -/
def isJsWs (c : Char) : Bool :=
  c = ' ' || c = '\t' || c = '\n' || c = '\r' || c = '\x0b' || c = '\x0c'

/-- `s.trim()`. -/
def trimChars (cs : List Char) : List Char :=
  ((cs.dropWhile isJsWs).reverse.dropWhile isJsWs).reverse

/-- `hay.includes(needle)` (substring containment; the empty needle is
always contained). -/
def listHasSubstr (hay needle : List Char) : Bool :=
  needle.isPrefixOf hay ||
    match hay with
    | [] => false
    | _ :: rest => listHasSubstr rest needle

/-! ## The ledger (`StateService`, `src/utils/state.ts`)

The on-disk ledger is `{ "jobs": { "<jobName>": <entry> } }`.  A job entry
loaded from JSON is either a non-object primitive (modelled as a string) or
an object whose fields are either strings (filename → "completed") or
arrays of strings (the "failed" list). -/

inductive JField : Type where
  | str (s : String)
  | arr (xs : List String)
deriving DecidableEq, Repr

inductive JobEntry : Type where
  | prim (s : String)
  | obj (fields : List (String × JField))
deriving DecidableEq, Repr

structure AppState : Type where
  jobs : List (String × JobEntry)
deriving DecidableEq, Repr

/-- `StateService.isJobProcessed`: returns `true` exactly when the job entry
is an object mapping `identifier` to the string `"completed"`.  A missing
entry or a primitive entry yields `false`; membership of `identifier` in the
`failed` array is *not* consulted. -/
def isJobProcessed (st : AppState) (jobName identifier : String) : Bool :=
  match alookup st.jobs jobName with
  | none => false
  | some (.prim _) => false
  | some (.obj fields) =>
    match alookup fields identifier with
    | some (.str s) => s = "completed"
    | _ => false

/-- `StateService.markJobCompleted`: replaces a missing or non-object entry
by `{}`, then assigns `entry[identifier] = "completed"` and saves. -/
def markJobCompleted (st : AppState) (jobName identifier : String) : AppState :=
  match alookup st.jobs jobName with
  | some (.obj fields) =>
    ⟨aset st.jobs jobName (.obj (aset fields identifier (.str "completed")))⟩
  | _ =>
    ⟨aset st.jobs jobName (.obj [(identifier, .str "completed")])⟩

/-- Membership test mirroring JavaScript `String.prototype.includes`. -/
def jsStrIncludes (s needle : String) : Bool :=
  listHasSubstr s.data needle.data

/-- `StateService.markJobFailed (jobName, identifier, reason)`.

The source computes `const jobState = this.state.jobs[jobName] || {}` but
then reads `this.state.jobs[jobName]` again into `currentState`; when no
entry exists, `currentState` is `undefined` and `currentState.failed`
throws a `TypeError` *before any assignment to `this.state` and before
`save()` runs* — modelled as `none`, the in-memory and persisted ledger
both left untouched.  The `reason` argument is never used by the source.
When the entry is an object whose `failed` field is an array, `identifier`
is appended unless already present.  A string-valued `failed` field follows
the JavaScript truthiness/`includes`/`push` behaviour: a falsy (empty)
string is reinitialised to an array, a truthy string containing
`identifier` as a substring is left alone, and otherwise `.push` throws. -/
def markJobFailed (st : AppState) (jobName identifier : String)
    (reason : String) : Option AppState :=
  let _ := reason
  match alookup st.jobs jobName with
  | none => none
  | some (.prim _) =>
    -- typeof jobState !== 'object': entry reset to `{}`, then failed := [identifier]
    some ⟨aset st.jobs jobName (.obj [("failed", .arr [identifier])])⟩
  | some (.obj fields) =>
    match alookup fields "failed" with
    | none =>
      some ⟨aset st.jobs jobName (.obj (aset fields "failed" (.arr [identifier])))⟩
    | some (.arr xs) =>
      let xs' := if identifier ∈ xs then xs else xs ++ [identifier]
      some ⟨aset st.jobs jobName (.obj (aset fields "failed" (.arr xs')))⟩
    | some (.str s) =>
      if s = "" then
        some ⟨aset st.jobs jobName (.obj (aset fields "failed" (.arr [identifier])))⟩
      else if jsStrIncludes s identifier then
        some ⟨aset st.jobs jobName (.obj fields)⟩
      else
        none

/-- A filename is recorded in the ledger's `failed` list for a job. -/
def inFailedList (st : AppState) (jobName identifier : String) : Bool :=
  match alookup st.jobs jobName with
  | some (.obj fields) =>
    match alookup fields "failed" with
    | some (.arr xs) => identifier ∈ xs
    | _ => false
  | _ => false

/-- A filename is in a terminal ledger state (completed or failed) for a job. -/
def recordedTerminal (st : AppState) (jobName identifier : String) : Bool :=
  isJobProcessed st jobName identifier || inFailedList st jobName identifier

/-! ## Discovery (`FileWatcher.watch`, `src/services/core/fileWatcher.ts`)

The directory listing is injected as the list of filenames found. -/

/-- The audio-extension filter: `file.toLowerCase().split('.').pop()`
equals `m4a` or `wav`. -/
def isAudioFile (file : String) : Bool :=
  let ext := (splitChar '.' (file.data.map Char.toLower)).getLastD []
  ext = ['m', '4', 'a'] || ext = ['w', 'a', 'v']

/-- The filenames selected by one discovery pass: audio files for which
`isJobProcessed` is false under the `voiceMemo` namespace. -/
def newFileNames (files : List String) (st : AppState) : List String :=
  files.filter (fun f => isAudioFile f && !(isJobProcessed st "voiceMemo" f))

/-- `FileWatcher.watch`: the selected filenames joined onto the source
directory. -/
def watch (voiceMemosDir : String) (files : List String) (st : AppState) :
    List String :=
  (newFileNames files st).map (fun f => voiceMemosDir ++ "/" ++ f)

/-! ## The shared retry/backoff loop

Every network-bound service repeats the same loop:
`for (attempt = 0; attempt < maxRetries; attempt++)` around one `fetch`,
with `backoffDelays = [1000, 5000, 30000]` and
`delay = backoffDelays[attempt] || 30000`, slept only when
`attempt < maxRetries - 1` and only on the branches that reach the sleep
(some `continue` branches skip it).  The loop is embedded once, driven by a
per-attempt classification of the injected fetch outcome; each service
below supplies the classification that mirrors its own branches. -/

/-- `backoffDelays[attempt] || 30000`. -/
def backoffDelay (attempt : Nat) : Nat :=
  if attempt = 0 then 1000 else if attempt = 1 then 5000 else 30000

/-- The delays slept by a run of `n + 1` consecutive failing attempts
starting at attempt 0: `[1000, 5000, 30000, 30000, ...]` truncated to `n`. -/
def backoffSchedule (n : Nat) : List Nat :=
  (List.range n).map backoffDelay

/-- How one attempt of a retry loop ends. -/
inductive StepClass (α : Type) : Type where
  | done (a : α)            -- `return` with a success result
  | shortCircuit (e : String) -- `return` a failure immediately (no retry)
  | retrySleep (e : String)   -- `continue` after the guarded backoff sleep
  | retryFast (e : String)    -- `continue` skipping the sleep
deriving DecidableEq, Repr

/-- What a retry loop did: number of fetch calls issued, the sleeps
performed (in order), and the returned result. -/
structure RetryTrace (α : Type) : Type where
  calls : Nat
  sleeps : List Nat
  result : α
deriving DecidableEq, Repr

def retryGo {α : Type} (step : Nat → StepClass α) (onFail : String → α)
    (maxRetries : Nat) (lastError : String) (attempt fuel : Nat) :
    RetryTrace α :=
  match fuel with
  | 0 => ⟨0, [], onFail lastError⟩
  | fuel' + 1 =>
    match step attempt with
    | .done a => ⟨1, [], a⟩
    | .shortCircuit e => ⟨1, [], onFail e⟩
    | .retrySleep e =>
      let rest := retryGo step onFail maxRetries e (attempt + 1) fuel'
      if attempt < maxRetries - 1 then
        ⟨rest.calls + 1, backoffDelay attempt :: rest.sleeps, rest.result⟩
      else
        ⟨rest.calls + 1, rest.sleeps, rest.result⟩
    | .retryFast e =>
      let rest := retryGo step onFail maxRetries e (attempt + 1) fuel'
      ⟨rest.calls + 1, rest.sleeps, rest.result⟩

def retryLoop {α : Type} (step : Nat → StepClass α) (onFail : String → α)
    (maxRetries : Nat) : RetryTrace α :=
  retryGo step onFail maxRetries "" 0 maxRetries

/-! ## Fetch outcomes

The result of one `fetch` of a generateContent call, as the services
observe it. -/

/-- Outcome of one fetch for the services that read a single text part:
an HTTP error response, a 200 whose JSON carries no text, a 200 with
text, or a thrown exception (network failure, file read error, ...). -/
inductive FetchText : Type where
  | httpErr (status : Nat) (body : String)
  | noText
  | ok (text : String)
  | thrown (msg : String)
deriving DecidableEq, Repr

def httpErrMsg (status : Nat) (body : String) : String :=
  "API error: " ++ toString status ++ " - " ++ body

/-! ## Transcription, plain variant
(`src/services/core/transcription.ts`) -/

structure TranscriptionResult : Type where
  text : String
  success : Bool
  error : Option String
deriving DecidableEq, Repr

namespace core

/-- Branch classification of `TranscriptionService.transcribe`'s loop body:
HTTP errors and thrown exceptions retry behind the guarded sleep, a missing
`text` retries via a bare `continue` (no sleep), text returns success. -/
def classifyTranscribe : FetchText → StepClass TranscriptionResult
  | .httpErr status body => .retrySleep (httpErrMsg status body)
  | .noText => .retryFast "No transcription text returned from API"
  | .ok text => .done ⟨text, true, none⟩
  | .thrown msg => .retrySleep msg

/-- `TranscriptionService.transcribe` over injected per-attempt fetch
outcomes; exhausting the loop returns `{ text: '', success: false,
error: lastError }`. -/
def transcribe (maxRetries : Nat) (outcomes : Nat → FetchText) :
    RetryTrace TranscriptionResult :=
  retryLoop (fun i => classifyTranscribe (outcomes i))
    (fun e => ⟨"", false, some e⟩) maxRetries

end core

/-! ## Journal formatting (`JournalService.format`,
`src/services/core/journal.ts`) -/

structure JournalFormatResult : Type where
  formattedText : String
  success : Bool
  error : Option String
deriving DecidableEq, Repr

namespace JournalService

/-- Branches of `JournalService.format`: identical loop, with the missing
`text` branch (message `No text returned from API`) retrying without the
sleep, and the success branch returning `text.trim()`. -/
def classifyFormat : FetchText → StepClass JournalFormatResult
  | .httpErr status body => .retrySleep (httpErrMsg status body)
  | .noText => .retryFast "No text returned from API"
  | .ok text => .done ⟨String.mk (trimChars text.data), true, none⟩
  | .thrown msg => .retrySleep msg

def format (maxRetries : Nat) (outcomes : Nat → FetchText) :
    RetryTrace JournalFormatResult :=
  retryLoop (fun i => classifyFormat (outcomes i))
    (fun e => ⟨"", false, some e⟩) maxRetries

end JournalService

/-! ## Organization (`OrganizationService.organize`,
`src/services/core/organization.ts`) -/

inductive ItemType : Type where
  | todo
  | note
deriving DecidableEq, Repr

/-- `OrganizationItem`. -/
structure OrgItem : Type where
  type : ItemType
  title : String
  description : Option String
  content : Option String
  priority : String
  category : Option String
deriving DecidableEq, Repr

structure OrganizationResult : Type where
  items : List OrgItem
  success : Bool
  error : Option String
deriving DecidableEq, Repr

/-- Outcome of one organization fetch: like `FetchText` plus the case of a
200 whose text is not valid JSON with an `items` array. -/
inductive FetchOrg : Type where
  | httpErr (status : Nat) (body : String)
  | noText
  | badJson
  | ok (items : List OrgItem)
  | thrown (msg : String)
deriving DecidableEq, Repr

namespace OrganizationService

/-- On success the raw transcript is attached back onto every item:
`description` for TODOs, `content` for NOTEs. -/
def attachTranscript (transcript : String) (items : List OrgItem) :
    List OrgItem :=
  items.map (fun it =>
    match it.type with
    | .todo => { it with description := some transcript }
    | .note => { it with content := some transcript })

/-- Branches of `OrganizationService.organize`: HTTP errors, thrown
exceptions *and malformed JSON* retry behind the guarded sleep; a missing
`text` retries without sleeping. -/
def classifyOrganize (transcript : String) :
    FetchOrg → StepClass OrganizationResult
  | .httpErr status body => .retrySleep (httpErrMsg status body)
  | .noText => .retryFast "No text returned from API"
  | .badJson => .retrySleep "Invalid JSON response from AI"
  | .ok items => .done ⟨attachTranscript transcript items, true, none⟩
  | .thrown msg => .retrySleep msg

def organize (maxRetries : Nat) (transcript : String)
    (outcomes : Nat → FetchOrg) : RetryTrace OrganizationResult :=
  retryLoop (fun i => classifyOrganize transcript (outcomes i))
    (fun e => ⟨[], false, some e⟩) maxRetries

end OrganizationService

/-! ## Transcription, quality-gated variant
(`packages/astra-scheduler/src/services/core/transcription.ts`) -/

inductive Intent : Type where
  | todo
  | note
  | journal
deriving DecidableEq, Repr

/-- The JSON object the quality-gated transcriber parses out of a 200
response. -/
structure ParsedTranscription : Type where
  transcription : String
  confidence : Nat
  isGarbage : Bool
  garbageReason : Option String
  intent : Intent
deriving DecidableEq, Repr

/-- `TranscriptionResult` of the quality-gated variant. -/
structure TranscriptionResultQG : Type where
  text : String
  success : Bool
  error : Option String
  confidence : Option Nat
  isGarbage : Option Bool
  garbageReason : Option String
  intent : Option Intent
deriving DecidableEq, Repr

/-- Outcome of one quality-gated transcription fetch. -/
inductive FetchQG : Type where
  | httpErr (status : Nat) (body : String)
  | noText
  | badJson
  | ok (parsed : ParsedTranscription)
  | thrown (msg : String)
deriving DecidableEq, Repr

namespace sched

/-- `nonRetryableStatusCodes`: HTTP status codes that exit the retry loop
immediately. -/
def nonRetryableStatusCodes : List Nat :=
  [400, 401, 403, 404, 408, 410, 429, 451]

/-- `permanentClientErrors` (only used to pick the log message). -/
def permanentClientErrors : List Nat :=
  [400, 401, 403, 404, 410, 451]

/-- `parsed.garbageReason || undefined`: a null or empty (falsy) reason
becomes `undefined`. -/
def reasonOrNone : Option String → Option String
  | none => none
  | some s => if s = "" then none else some s

/-- Branches of the quality-gated `TranscriptionService.transcribe`:
an HTTP error with a non-retryable status returns failure at once; other
HTTP errors and thrown exceptions retry behind the guarded sleep; a
missing response text and malformed JSON retry via bare `continue` (no
sleep); parsed JSON returns success carrying the quality fields. -/
def classifyTranscribe : FetchQG → StepClass TranscriptionResultQG
  | .httpErr status body =>
    let e := httpErrMsg status body
    if status ∈ nonRetryableStatusCodes then .shortCircuit e
    else .retrySleep e
  | .noText => .retryFast "No response returned from API"
  | .badJson => .retryFast "Invalid JSON response from transcription API"
  | .ok p =>
    .done ⟨p.transcription, true, none, some p.confidence, some p.isGarbage,
      reasonOrNone p.garbageReason, some p.intent⟩
  | .thrown msg => .retrySleep msg

def transcribe (maxRetries : Nat) (outcomes : Nat → FetchQG) :
    RetryTrace TranscriptionResultQG :=
  retryLoop (fun i => classifyTranscribe (outcomes i))
    (fun e => ⟨"", false, some e, none, none, none, none⟩) maxRetries

end sched

/-! ## Task/Reference destination sync (`NotionSyncService`,
`src/services/core/notionSync.ts`)

The per-item create calls (`createTodo`/`createNote`) run their own retry
loop and either return or rethrow the last error; their net effect is
abstracted as an injected verdict per item (`createOk`), with `createErr`
the message of the error rethrown on exhaustion. -/

structure NotionSchema : Type where
  priorities : List String
  categories : List String
deriving DecidableEq, Repr

structure SyncResult : Type where
  itemsCreated : Nat
  itemsFailed : Nat
  success : Bool
  errors : List String
deriving DecidableEq, Repr

/-- A sync run's observable effects: the returned `SyncResult` and the
items actually submitted to the destination store (one create call each). -/
structure SyncOut : Type where
  res : SyncResult
  submitted : List OrgItem
deriving DecidableEq, Repr

namespace NotionSyncService

/-- `validateItem`: a TODO's `priority` must be a member of the schema's
priority list; a NOTE's `category`, when present and truthy (non-empty),
must be a member of the category list. -/
def validateItem (schema : NotionSchema) (item : OrgItem) : Bool :=
  match item.type with
  | .todo => schema.priorities.contains item.priority
  | .note =>
    match item.category with
    | none => true
    | some c => c = "" || schema.categories.contains c

/-- The per-item loop of `sync`: an invalid item is counted failed with an
`Invalid item: <title>` error and *no create call*; a valid item is
submitted, and a create that exhausts its retries is caught, counted
failed, and sets `success := false`. -/
def sync (schema : NotionSchema) (createOk : OrgItem → Bool)
    (createErr : OrgItem → String) : List OrgItem → SyncOut
  | [] => ⟨⟨0, 0, true, []⟩, []⟩
  | item :: rest =>
    let r := sync schema createOk createErr rest
    if validateItem schema item then
      if createOk item then
        ⟨⟨r.res.itemsCreated + 1, r.res.itemsFailed, r.res.success, r.res.errors⟩,
          item :: r.submitted⟩
      else
        ⟨⟨r.res.itemsCreated, r.res.itemsFailed + 1, false,
          createErr item :: r.res.errors⟩, item :: r.submitted⟩
    else
      ⟨⟨r.res.itemsCreated, r.res.itemsFailed + 1, r.res.success,
        ("Invalid item: " ++ item.title) :: r.res.errors⟩, r.submitted⟩

end NotionSyncService

/-! ## Journal destination sync (`JournalNotionService`,
`src/services/core/journalNotionSync.ts`)

The destination database is modelled as a map from the `date` property to
a page id, with a counter allocating fresh page ids; `syncEntry` is
embedded on its success path (the claim under verification concerns how
pages are keyed, not the retry wrapper). -/

/-- The local date-time components the service reads off the recording's
`Date` via `getFullYear`/`getMonth`/`getDate` (local time, not UTC). -/
structure LocalDateTime : Type where
  year : Nat
  month : Nat
  day : Nat
  hour : Nat
  minute : Nat
deriving DecidableEq, Repr

/-- `String(n).padStart(2, '0')`. -/
def pad2 (n : Nat) : String :=
  let s := toString n
  if s.length < 2 then "0" ++ s else s

structure JournalDB : Type where
  pages : List (String × Nat)
  nextId : Nat
deriving DecidableEq, Repr

/-- All page ids in the store are below the allocation counter. -/
def JournalDB.Fresh (db : JournalDB) : Prop :=
  ∀ p ∈ db.pages, p.2 < db.nextId

structure JournalSyncResult : Type where
  success : Bool
  pageId : Option Nat
  isNewPage : Bool
  error : Option String
deriving DecidableEq, Repr

namespace JournalNotionService

/-- `formatDateISO`: local year, zero-padded local month and day. -/
def formatDateISO (t : LocalDateTime) : String :=
  toString t.year ++ "-" ++ pad2 t.month ++ "-" ++ pad2 t.day

/-- `findTodayPage`: query the database for a page whose `date` property
equals the date string. -/
def findTodayPage (db : JournalDB) (dateString : String) : Option Nat :=
  alookup db.pages dateString

/-- `syncEntry` (success path): find the page keyed by the timestamp's
local calendar date and append to it, or create a new page under that key. -/
def syncEntry (db : JournalDB) (t : LocalDateTime) :
    JournalSyncResult × JournalDB :=
  let dateString := formatDateISO t
  match findTodayPage db dateString with
  | some pid => (⟨true, some pid, false, none⟩, db)
  | none =>
    (⟨true, some db.nextId, true, none⟩,
      ⟨(dateString, db.nextId) :: db.pages, db.nextId + 1⟩)

end JournalNotionService

/-! ## Intent routing (`VoiceMemoJob.detectIntent` /
`VoiceMemoJob.stripPrefixKeyword`, `src/jobs/VoiceMemoJob.ts`)

The regular expressions are unfolded over the transcript's characters;
matching is case-insensitive via lowering (the transcripts are ASCII). -/

/-- The character class `[,:.\s]` closing the intent keywords. -/
def isIntentDelim (c : Char) : Bool :=
  c = ',' || c = ':' || c = '.' || isJsWs c

/-- The optional separator class `[\s-]` inside `to do` / `to-do`. -/
def isTodoSep (c : Char) : Bool :=
  isJsWs c || c = '-'

/-- `/^to[\s-]?do[,:.\s]/` on a lowered character list. -/
def todoKeywordMatch : List Char → Bool
  | 't' :: 'o' :: 'd' :: 'o' :: d :: _ => isIntentDelim d
  | 't' :: 'o' :: s :: 'd' :: 'o' :: d :: _ => isTodoSep s && isIntentDelim d
  | _ => false

/-- `/^note[,:.\s]/` on a lowered character list. -/
def noteKeywordMatch : List Char → Bool
  | 'n' :: 'o' :: 't' :: 'e' :: d :: _ => isIntentDelim d
  | _ => false

/-- `VoiceMemoJob.detectIntent`: a leading `todo`/`to do`/`to-do` keyword
followed by `[,:.\s]` routes to TODO, a leading `note` keyword to NOTE,
everything else to JOURNAL. -/
def detectIntent (transcript : String) : Intent :=
  let l := (trimChars transcript.data).map Char.toLower
  if todoKeywordMatch l then .todo
  else if noteKeywordMatch l then .note
  else .journal

/-- The trailing class `[,.:!?\s]*` stripped after a keyword. -/
def isStripDelim (c : Char) : Bool :=
  c = ',' || c = '.' || c = ':' || c = '!' || c = '?' || isJsWs c

/-- Length of the leading `(to[\s-]?do|note|journal)` keyword of the
lowered character list, when one matches. -/
def keywordLen : List Char → Option Nat
  | 't' :: 'o' :: 'd' :: 'o' :: _ => some 4
  | 't' :: 'o' :: s :: 'd' :: 'o' :: _ => if isTodoSep s then some 5 else none
  | 'n' :: 'o' :: 't' :: 'e' :: _ => some 4
  | 'j' :: 'o' :: 'u' :: 'r' :: 'n' :: 'a' :: 'l' :: _ => some 7
  | _ => none

/-- `VoiceMemoJob.stripPrefixKeyword`: trim, delete a leading
`to do`/`todo`/`to-do`/`note`/`journal` keyword with any following
`[,.:!?\s]*` run, trim again. -/
def stripPrefixKeyword (s : String) : String :=
  let t := trimChars s.data
  match keywordLen (t.map Char.toLower) with
  | none => String.mk (trimChars t)
  | some n => String.mk (trimChars ((t.drop n).dropWhile isStripDelim))

/-- The routing decision of `VoiceMemoJob.processFile` together with the
text handed to the downstream step: the JOURNAL branch passes the
prefix-stripped transcript to the journal formatter
(`processJournalEntry`), while the TODO/NOTE branch passes the transcript
unchanged to the organization service (`processTodoNoteEntry`). -/
def routedText (transcript : String) : Intent × String :=
  match detectIntent transcript with
  | .journal => (.journal, stripPrefixKeyword transcript)
  | i => (i, transcript)

/-! ## The orchestrator (`VoiceMemoJob.processFile`,
`src/jobs/VoiceMemoJob.ts`)

Collaborator results are injected; the trace records the calls issued, the
warnings logged, and the resulting ledger.  The transcription result is
taken in the quality-gated shape (the plain variant is the same record
with the extra fields absent); `processFile` reads only `success`, `text`
and `error`.  File copies are assumed to succeed; when `markJobFailed`
throws, `processFile`'s catch-around-archive swallows the error and the
ledger is left unchanged. -/

inductive PipeCall : Type where
  | transcribeFile
  | organizeCall
  | notionSyncCall
  | formatCall
  | journalSyncCall
  | archiveProcessed
  | archiveFailedCall
  | archiveInvalidCall
deriving DecidableEq, Repr

/-- `filePath.split('/').pop() || filePath`. -/
def lastPathComponent (filePath : String) : String :=
  let last := (splitChar '/' filePath.data).getLastD []
  if last = [] then filePath else String.mk last

structure FileTrace : Type where
  calls : List PipeCall
  warns : List String
  state : AppState
deriving DecidableEq, Repr

namespace VoiceMemoJob

/-- The catch block of `processFile`: copy to the failed directory, then
commit the failed ledger state; a `markJobFailed` throw is caught and only
logged, leaving the ledger untouched. -/
def onFailure (st : AppState) (filename : String) (calls : List PipeCall)
    (reason : String) : FileTrace :=
  match markJobFailed st "voiceMemo" filename reason with
  | some st' => ⟨calls ++ [.archiveFailedCall], [], st'⟩
  | none => ⟨calls ++ [.archiveFailedCall], [], st⟩

/-- `VoiceMemoJob.processFile` over injected collaborator results.
`syncF` maps the organized items to the sync result observed by
`processTodoNoteEntry`. -/
def processFile (st : AppState) (filePath : String)
    (tr : TranscriptionResultQG)
    (orgR : OrganizationResult)
    (syncF : List OrgItem → SyncResult)
    (fmtR : JournalFormatResult)
    (jSyncR : JournalSyncResult) : FileTrace :=
  let filename := lastPathComponent filePath
  if tr.success = false then
    onFailure st filename [.transcribeFile]
      ("Transcription failed: " ++ tr.error.getD "undefined")
  else
    match detectIntent tr.text with
    | .journal =>
      if fmtR.success = false then
        onFailure st filename [.transcribeFile, .formatCall]
          ("Journal formatting failed: " ++ fmtR.error.getD "undefined")
      else if jSyncR.success = false then
        onFailure st filename [.transcribeFile, .formatCall, .journalSyncCall]
          ("Journal sync failed: " ++ jSyncR.error.getD "undefined")
      else
        ⟨[.transcribeFile, .formatCall, .journalSyncCall, .archiveProcessed],
          [], markJobCompleted st "voiceMemo" filename⟩
    | _ =>
      if orgR.success = false then
        onFailure st filename [.transcribeFile, .organizeCall]
          ("Organization failed: " ++ orgR.error.getD "undefined")
      else if orgR.items.isEmpty then
        ⟨[.transcribeFile, .organizeCall, .archiveProcessed], [],
          markJobCompleted st "voiceMemo" filename⟩
      else
        let sr := syncF orgR.items
        if sr.success = false ∧ sr.itemsFailed = sr.itemsCreated then
          onFailure st filename
            [.transcribeFile, .organizeCall, .notionSyncCall]
            "Notion sync failed completely"
        else
          ⟨[.transcribeFile, .organizeCall, .notionSyncCall, .archiveProcessed],
            if 0 < sr.itemsFailed then
              ["Sync completed with " ++ toString sr.itemsFailed ++ " failure(s)"]
            else [],
            markJobCompleted st "voiceMemo" filename⟩

end VoiceMemoJob

/-! ## Specification vocabulary

Predicates and composite values used by the theorem statements. -/

/-- A fetch outcome on which the plain transcriber / journal formatter
loop retries (every branch except a successful text). -/
def FetchText.retryable : FetchText → Prop
  | .ok _ => False
  | _ => True

/-- The `lastError` recorded by the plain transcriber / journal formatter
for a failing fetch outcome (`noTextMsg` is the service's message for a
200 without text). -/
def FetchText.failMsgT (noTextMsg : String) : FetchText → String
  | .httpErr s b => httpErrMsg s b
  | .noText => noTextMsg
  | .ok _ => ""
  | .thrown m => m

/-- A fetch outcome on which the organization loop retries. -/
def FetchOrg.retryable : FetchOrg → Prop
  | .ok _ => False
  | _ => True

/-- The `lastError` recorded by the organization loop for a failing fetch
outcome. -/
def FetchOrg.failMsgO : FetchOrg → String
  | .httpErr s b => httpErrMsg s b
  | .noText => "No text returned from API"
  | .badJson => "Invalid JSON response from AI"
  | .ok _ => ""
  | .thrown m => m

/-- A ledger in which `a.m4a` is recorded in the `failed` list (a terminal
state per the spec) and nowhere else. -/
def stFailedOnly : AppState :=
  ⟨[("voiceMemo", .obj [("failed", .arr ["a.m4a"])])]⟩

/-- A ledger with an existing (empty) `voiceMemo` entry. -/
def stVM : AppState := ⟨[("voiceMemo", .obj [])]⟩

/-- Concrete valid TODO items and a schema for exercising the sync path. -/
def itemA : OrgItem := ⟨.todo, "a", none, none, "asap", none⟩

def itemB : OrgItem := ⟨.todo, "b", none, none, "asap", none⟩

def itemC : OrgItem := ⟨.todo, "c", none, none, "asap", none⟩

def schemaAS : NotionSchema := ⟨["asap", "soon", "eventually"], ["general"]⟩

def createErrK : OrgItem → String := fun _ => "Create TODO attempt failed"

/-- Sync via the embedded `NotionSyncService.sync` where every create call
succeeds except the item titled `b`. -/
def syncNotB : List OrgItem → SyncResult := fun items =>
  (NotionSyncService.sync schemaAS (fun it => it.title != "b") createErrK
    items).res

/-- Sync via the embedded `NotionSyncService.sync` where every create call
succeeds except the item titled `c`. -/
def syncNotC : List OrgItem → SyncResult := fun items =>
  (NotionSyncService.sync schemaAS (fun it => it.title != "c") createErrK
    items).res

/-- A successful transcription routed to the TODO path. -/
def trTodo : TranscriptionResultQG :=
  ⟨"todo: things", true, none, none, none, none, none⟩

def orgTwo : OrganizationResult := ⟨[itemA, itemB], true, none⟩

def orgThree : OrganizationResult := ⟨[itemA, itemB, itemC], true, none⟩

def fmtOkR : JournalFormatResult := ⟨"", true, none⟩

def jOkR : JournalSyncResult := ⟨true, none, false, none⟩

/-- The three example recording timestamps of the journal keying claim
(local components): Jan 10 2026 09:00, Jan 10 2026 23:00, Jan 11 2026
00:05. -/
def d0110a : LocalDateTime := ⟨2026, 1, 10, 9, 0⟩

def d0110b : LocalDateTime := ⟨2026, 1, 10, 23, 0⟩

def d0111 : LocalDateTime := ⟨2026, 1, 11, 0, 5⟩

/-! ## Helper lemmas -/

theorem alookup_aset_self {α : Type} (m : List (String × α)) (k : String)
    (v : α) : alookup (aset m k v) k = some v := by
  induction m with
  | nil => simp [aset, alookup]
  | cons hd tl ih =>
    obtain ⟨k', v'⟩ := hd
    by_cases h : k' = k
    · simp [aset, h, alookup]
    · simp [aset, h, alookup, ih]

theorem alookup_aset_ne {α : Type} (m : List (String × α)) (k k' : String)
    (v : α) (h : k ≠ k') : alookup (aset m k v) k' = alookup m k' := by
  induction m with
  | nil => simp [aset, alookup, h]
  | cons hd tl ih =>
    obtain ⟨k0, v0⟩ := hd
    by_cases h0 : k0 = k
    · subst h0
      simp [aset, alookup, h]
    · simp only [aset, if_neg h0]
      by_cases h1 : k0 = k'
      · simp [alookup, h1]
      · simp [alookup, h1, ih]

theorem isJobProcessed_markJobCompleted (st : AppState) (j f : String) :
    isJobProcessed (markJobCompleted st j f) j f = true := by
  unfold markJobCompleted
  cases halo : alookup st.jobs j with
  | none => simp [isJobProcessed, alookup_aset_self, alookup]
  | some entry =>
    cases entry with
    | prim s => simp [isJobProcessed, alookup_aset_self, alookup]
    | obj fields => simp [isJobProcessed, alookup_aset_self]

/-- `markJobFailed` only rewrites the `failed` field, so completion status
of any other filename is untouched. -/
theorem isJobProcessed_markJobFailed (st : AppState) (j f r : String)
    (st' : AppState) (hf : f ≠ "failed")
    (h : markJobFailed st j f r = some st') :
    isJobProcessed st' j f = isJobProcessed st j f := by
  unfold markJobFailed at h
  cases halo : alookup st.jobs j with
  | none => simp [halo] at h
  | some entry =>
    cases entry with
    | prim s =>
      simp only [halo] at h
      cases h
      simp [isJobProcessed, halo, alookup_aset_self, alookup, hf]
    | obj fields =>
      simp only [halo] at h
      cases hff : alookup fields "failed" with
      | none =>
        simp only [hff] at h
        cases h
        simp [isJobProcessed, halo, alookup_aset_self,
          alookup_aset_ne _ _ _ _ (Ne.symm hf)]
      | some fv =>
        cases fv with
        | arr xs =>
          simp only [hff] at h
          cases h
          simp [isJobProcessed, halo, alookup_aset_self,
            alookup_aset_ne _ _ _ _ (Ne.symm hf)]
        | str s =>
          simp only [hff] at h
          by_cases hs : s = ""
          · simp only [hs, if_pos rfl] at h
            cases h
            simp [isJobProcessed, halo, alookup_aset_self,
              alookup_aset_ne _ _ _ _ (Ne.symm hf)]
          · simp only [if_neg hs] at h
            by_cases hincl : jsStrIncludes s f = true
            · simp only [hincl, if_pos rfl] at h
              cases h
              simp [isJobProcessed, halo, alookup_aset_self]
            · simp [hincl] at h

theorem range_map_backoff (a n : Nat) (hn : 0 < n) :
    (List.range n).map (fun k => backoffDelay (a + k)) =
      backoffDelay a ::
        (List.range (n - 1)).map (fun k => backoffDelay (a + 1 + k)) := by
  obtain ⟨m, rfl⟩ := Nat.exists_eq_succ_of_ne_zero (Nat.pos_iff_ne_zero.mp hn)
  have hfun : ((fun k => backoffDelay (a + k)) ∘ Nat.succ) =
      (fun k => backoffDelay (a + 1 + k)) := by
    funext k
    simp only [Function.comp_apply]
    congr 1
    omega
  rw [List.range_succ_eq_map, List.map_cons, List.map_map, hfun]
  simp

/-- A retry loop all of whose attempts fail on a sleeping branch issues one
call per unit of fuel, sleeps the backoff delay after every attempt but the
last, and fails with the last attempt's error. -/
theorem retryGo_sleep_all {α : Type} (step : Nat → StepClass α)
    (onFail : String → α) (maxR : Nat) (msg : Nat → String)
    (hstep : ∀ i, step i = .retrySleep (msg i)) :
    ∀ fuel attempt le, attempt + fuel = maxR → 0 < fuel →
      retryGo step onFail maxR le attempt fuel =
        ⟨fuel, (List.range (fuel - 1)).map (fun k => backoffDelay (attempt + k)),
          onFail (msg (maxR - 1))⟩ := by
  intro fuel
  induction fuel with
  | zero => intro attempt le _ h0; omega
  | succ f ih =>
    intro attempt le hsum _
    simp only [retryGo, hstep]
    rcases Nat.eq_zero_or_pos f with hf | hf
    · subst hf
      have hat : attempt = maxR - 1 := by omega
      have hguard : ¬ attempt < maxR - 1 := by omega
      rw [if_neg hguard]
      simp [retryGo, hat]
    · have hguard : attempt < maxR - 1 := by omega
      rw [if_pos hguard, ih (attempt + 1) (msg attempt) (by omega) hf]
      simp only [Nat.add_sub_cancel]
      rw [range_map_backoff attempt f hf]

/-- A retry loop all of whose attempts fail on a non-sleeping `continue`
branch issues one call per unit of fuel, sleeps nothing, and fails with
the last attempt's error. -/
theorem retryGo_fast_all {α : Type} (step : Nat → StepClass α)
    (onFail : String → α) (maxR : Nat) (msg : Nat → String)
    (hstep : ∀ i, step i = .retryFast (msg i)) :
    ∀ fuel attempt le, attempt + fuel = maxR → 0 < fuel →
      retryGo step onFail maxR le attempt fuel =
        ⟨fuel, [], onFail (msg (maxR - 1))⟩ := by
  intro fuel
  induction fuel with
  | zero => intro attempt le _ h0; omega
  | succ f ih =>
    intro attempt le hsum _
    simp only [retryGo, hstep]
    rcases Nat.eq_zero_or_pos f with hf | hf
    · subst hf
      have hat : attempt = maxR - 1 := by omega
      simp [retryGo, hat]
    · rw [ih (attempt + 1) (msg attempt) (by omega) hf]

/-- A retry loop all of whose attempts fail on either retrying branch
issues one call per unit of fuel and fails with the last attempt's error. -/
theorem retryGo_retry_all {α : Type} (step : Nat → StepClass α)
    (onFail : String → α) (maxR : Nat) (msg : Nat → String)
    (hstep : ∀ i, step i = .retrySleep (msg i) ∨ step i = .retryFast (msg i)) :
    ∀ fuel attempt le, attempt + fuel = maxR → 0 < fuel →
      (retryGo step onFail maxR le attempt fuel).calls = fuel ∧
      (retryGo step onFail maxR le attempt fuel).result = onFail (msg (maxR - 1)) := by
  intro fuel
  induction fuel with
  | zero => intro attempt le _ h0; omega
  | succ f ih =>
    intro attempt le hsum _
    rcases hstep attempt with h | h <;> simp only [retryGo, h]
    · rcases Nat.eq_zero_or_pos f with hf | hf
      · subst hf
        have hat : attempt = maxR - 1 := by omega
        by_cases hguard : attempt < maxR - 1 <;>
          simp [hguard, retryGo, hat]
      · have hrest := ih (attempt + 1) (msg attempt) (by omega) hf
        by_cases hguard : attempt < maxR - 1 <;>
          simp [hguard, hrest.1, hrest.2]
    · rcases Nat.eq_zero_or_pos f with hf | hf
      · subst hf
        have hat : attempt = maxR - 1 := by omega
        simp [retryGo, hat]
      · have hrest := ih (attempt + 1) (msg attempt) (by omega) hf
        simp [hrest.1, hrest.2]

theorem retryLoop_sleep_all {α : Type} (step : Nat → StepClass α)
    (onFail : String → α) (maxR : Nat) (msg : Nat → String)
    (hstep : ∀ i, step i = .retrySleep (msg i)) (hm : 0 < maxR) :
    retryLoop step onFail maxR =
      ⟨maxR, backoffSchedule (maxR - 1), onFail (msg (maxR - 1))⟩ := by
  have h := retryGo_sleep_all step onFail maxR msg hstep maxR 0 "" (by omega) hm
  simpa [retryLoop, backoffSchedule] using h

theorem retryLoop_fast_all {α : Type} (step : Nat → StepClass α)
    (onFail : String → α) (maxR : Nat) (msg : Nat → String)
    (hstep : ∀ i, step i = .retryFast (msg i)) (hm : 0 < maxR) :
    retryLoop step onFail maxR = ⟨maxR, [], onFail (msg (maxR - 1))⟩ := by
  have h := retryGo_fast_all step onFail maxR msg hstep maxR 0 "" (by omega) hm
  simpa [retryLoop] using h

theorem retryLoop_retry_all {α : Type} (step : Nat → StepClass α)
    (onFail : String → α) (maxR : Nat) (msg : Nat → String)
    (hstep : ∀ i, step i = .retrySleep (msg i) ∨ step i = .retryFast (msg i))
    (hm : 0 < maxR) :
    (retryLoop step onFail maxR).calls = maxR ∧
    (retryLoop step onFail maxR).result = onFail (msg (maxR - 1)) := by
  have h := retryGo_retry_all step onFail maxR msg hstep maxR 0 "" (by omega) hm
  simpa [retryLoop] using h

/-! ## Claim C10 -/

/-- C10.  `StateService.markJobFailed` on a job name with no ledger entry
reads `currentState.failed` off `undefined` and throws a `TypeError`
before any in-memory mutation or ledger write (modelled: `none`, state
unchanged); on an existing object entry in the ledger's documented format
(`failed` absent or an array) the call succeeds, initialises the list when
absent, appends the identifier only when not already present, and keeps a
duplicate-free list duplicate-free. -/
theorem markJobFailed_spec :
    (∀ (st : AppState) (j f r : String),
      alookup st.jobs j = none → markJobFailed st j f r = none) ∧
    (∀ (st : AppState) (j f r : String) (fields : List (String × JField)),
      alookup st.jobs j = some (.obj fields) →
      alookup fields "failed" = none →
      markJobFailed st j f r =
        some ⟨aset st.jobs j (.obj (aset fields "failed" (.arr [f])))⟩) ∧
    (∀ (st : AppState) (j f r : String) (fields : List (String × JField))
      (xs : List String),
      alookup st.jobs j = some (.obj fields) →
      alookup fields "failed" = some (.arr xs) →
      markJobFailed st j f r =
        some ⟨aset st.jobs j (.obj (aset fields "failed"
          (.arr (if f ∈ xs then xs else xs ++ [f]))))⟩ ∧
      f ∈ (if f ∈ xs then xs else xs ++ [f]) ∧
      (xs.Nodup → (if f ∈ xs then xs else xs ++ [f]).Nodup)) := by
  refine ⟨?_, ?_, ?_⟩
  · intro st j f r h
    simp [markJobFailed, h]
  · intro st j f r fields h hff
    simp [markJobFailed, h, hff]
  · intro st j f r fields xs h hff
    refine ⟨by simp [markJobFailed, h, hff], ?_, ?_⟩
    · by_cases hmem : f ∈ xs <;> simp [hmem]
    · intro hnd
      by_cases hmem : f ∈ xs
      · simpa [hmem] using hnd
      · simp only [if_neg hmem]
        simpa [List.nodup_append, hmem] using hnd

theorem markJobFailed_spec_witness :
    markJobFailed ⟨[]⟩ "voiceMemo" "a.m4a" "boom" = none ∧
    markJobFailed ⟨[("voiceMemo", .obj [("failed", .arr ["a.m4a"])])]⟩
        "voiceMemo" "b.m4a" "boom" =
      some ⟨[("voiceMemo", .obj [("failed", .arr ["a.m4a", "b.m4a"])])]⟩ ∧
    ["a.m4a", "b.m4a"].Nodup := by
  refine ⟨markJobFailed_spec.1 ⟨[]⟩ "voiceMemo" "a.m4a" "boom" (by decide), ?_, by decide⟩
  have h := (markJobFailed_spec.2.2 ⟨[("voiceMemo", .obj [("failed", .arr ["a.m4a"])])]⟩
    "voiceMemo" "b.m4a" "boom" [("failed", .arr ["a.m4a"])] ["a.m4a"]
    (by decide) (by decide)).1
  simpa using h

/-! ## Claim C1 -/

/-- C1 is false as stated: a filename in the terminal `failed` state *is*
re-selected by the discovery pass, because `isJobProcessed` only compares
the entry's value against `"completed"` and never consults the `failed`
list. -/
theorem watch_reselects_failed_counterexample :
    recordedTerminal stFailedOnly "voiceMemo" "a.m4a" = true ∧
    isJobProcessed stFailedOnly "voiceMemo" "a.m4a" = false ∧
    watch "/v" ["a.m4a", "b.txt"] stFailedOnly = ["/v/a.m4a"] ∧
    decide (watch "/v" ["a.m4a", "b.txt"] stFailedOnly = []) = false := by
  decide

/-- C1 amended.  A discovery pass selects exactly the audio files whose
filenames are not recorded as `completed` under the `voiceMemo` namespace:
(1) membership in the selection is equivalent to being a listed audio file
not marked completed; (2) once a filename is marked completed it is never
selected again; (3) marking a filename failed leaves its completion status
— hence its selection — unchanged, so failed files are re-selected. -/
theorem watch_selects_uncompleted_audio :
    (∀ (files : List String) (st : AppState) (f : String),
      f ∈ newFileNames files st ↔
        f ∈ files ∧ isAudioFile f = true ∧
          isJobProcessed st "voiceMemo" f = false) ∧
    (∀ (st : AppState) (files : List String) (f : String),
      f ∉ newFileNames files (markJobCompleted st "voiceMemo" f)) ∧
    (∀ (st st' : AppState) (f r : String), f ≠ "failed" →
      markJobFailed st "voiceMemo" f r = some st' →
      isJobProcessed st' "voiceMemo" f = isJobProcessed st "voiceMemo" f) := by
  refine ⟨?_, ?_, ?_⟩
  · intro files st f
    simp [newFileNames, List.mem_filter, and_assoc]
  · intro st files f hmem
    simp only [newFileNames, List.mem_filter] at hmem
    have := isJobProcessed_markJobCompleted st "voiceMemo" f
    simp [this] at hmem
  · intro st st' f r hf h
    exact isJobProcessed_markJobFailed st "voiceMemo" f r st' hf h

theorem watch_selects_uncompleted_audio_witness :
    ("b.m4a" ∈ newFileNames ["a.m4a", "b.m4a"]
        (markJobCompleted ⟨[]⟩ "voiceMemo" "a.m4a")) ∧
    ("a.m4a" ∉ newFileNames ["a.m4a", "b.m4a"]
        (markJobCompleted ⟨[]⟩ "voiceMemo" "a.m4a")) ∧
    isJobProcessed stFailedOnly "voiceMemo" "a.m4a" =
      isJobProcessed ⟨[("voiceMemo", .obj [])]⟩ "voiceMemo" "a.m4a" := by
  refine ⟨?_, ?_, ?_⟩
  · exact (watch_selects_uncompleted_audio.1 ["a.m4a", "b.m4a"] _ "b.m4a").mpr
      (by decide)
  · exact watch_selects_uncompleted_audio.2.1 ⟨[]⟩ ["a.m4a", "b.m4a"] "a.m4a"
  · exact watch_selects_uncompleted_audio.2.2 ⟨[("voiceMemo", .obj [])]⟩
      stFailedOnly "a.m4a" "r" (by decide) (by decide)

/-! ## Claim C5 -/

/-- C5 is false as stated: a throttling response (429) is in the
non-retryable set and short-circuits after exactly one call instead of
being retried up to the configured maximum attempts. -/
theorem qg_throttle_short_circuits_counterexample :
    sched.transcribe 3 (fun _ => .httpErr 429 "Too Many Requests") =
      ⟨1, [], ⟨"", false, some "API error: 429 - Too Many Requests",
        none, none, none, none⟩⟩ ∧
    decide ((sched.transcribe 3
      (fun _ => .httpErr 429 "Too Many Requests")).calls = 3) = false := by
  decide

/-- C5 amended.  In the quality-gated transcriber's retry loop, an HTTP
failure whose status is in `nonRetryableStatusCodes` — the permanent 4xx
statuses 400/401/403/404/410/451 together with 408 *and the throttling
status 429* — short-circuits immediately: exactly one call is issued and a
`success:false` result is returned with no backoff sleeps.  Failing
statuses outside that set (5xx and the remaining 4xx) are retried up to
the configured maximum attempts with the backoff schedule. -/
theorem qg_transcribe_status_policy :
    (∀ (maxR status : Nat) (body : String) (outcomes : Nat → FetchQG),
      0 < maxR → outcomes 0 = .httpErr status body →
      status ∈ sched.nonRetryableStatusCodes →
      sched.transcribe maxR outcomes =
        ⟨1, [], ⟨"", false, some (httpErrMsg status body),
          none, none, none, none⟩⟩) ∧
    (∀ (maxR : Nat) (status : Nat → Nat) (body : Nat → String),
      0 < maxR → (∀ i, status i ∉ sched.nonRetryableStatusCodes) →
      sched.transcribe maxR (fun i => .httpErr (status i) (body i)) =
        ⟨maxR, backoffSchedule (maxR - 1),
          ⟨"", false, some (httpErrMsg (status (maxR - 1)) (body (maxR - 1))),
            none, none, none, none⟩⟩) := by
  constructor
  · intro maxR status body outcomes hm h0 hmem
    obtain ⟨f, rfl⟩ := Nat.exists_eq_succ_of_ne_zero (Nat.pos_iff_ne_zero.mp hm)
    simp [sched.transcribe, retryLoop, retryGo, h0,
      sched.classifyTranscribe, hmem]
  · intro maxR status body hm hnot
    have hstep : ∀ i,
        (fun i => sched.classifyTranscribe (.httpErr (status i) (body i))) i =
          StepClass.retrySleep (httpErrMsg (status i) (body i)) := by
      intro i
      simp [sched.classifyTranscribe, hnot i]
    have h := retryLoop_sleep_all
      (fun i => sched.classifyTranscribe (.httpErr (status i) (body i)))
      (fun e => ⟨"", false, some e, none, none, none, none⟩) maxR
      (fun i => httpErrMsg (status i) (body i)) hstep hm
    simpa [sched.transcribe] using h

theorem qg_transcribe_status_policy_witness :
    sched.transcribe 3 (fun _ => .httpErr 404 "not found") =
      ⟨1, [], ⟨"", false, some "API error: 404 - not found",
        none, none, none, none⟩⟩ ∧
    sched.transcribe 3 (fun _ => .httpErr 500 "server error") =
      ⟨3, [1000, 5000], ⟨"", false, some "API error: 500 - server error",
        none, none, none, none⟩⟩ := by
  constructor
  · have h := qg_transcribe_status_policy.1 3 404 "not found"
      (fun _ => .httpErr 404 "not found") (by decide) rfl (by decide)
    simpa using h
  · have h := qg_transcribe_status_policy.2 3 (fun _ => 500)
      (fun _ => "server error") (by decide)
      (fun i => by show ¬ (500 : Nat) ∈ sched.nonRetryableStatusCodes; decide)
    have hsch : backoffSchedule 2 = [1000, 5000] := by decide
    simpa [hsch] using h

/-! ## Claim C6 -/

/-- C6 is false as stated: when every attempt fails with the retryable
empty-text condition, the journal formatter retries immediately — it
performs *no* backoff sleeps, not the claimed 1000ms/5000ms schedule —
though it still issues exactly `maxRetries` calls and returns
`success:false` with the last error. -/
theorem retry_no_backoff_on_empty_counterexample :
    JournalService.format 3 (fun _ => .noText) =
      ⟨3, [], ⟨"", false, some "No text returned from API"⟩⟩ ∧
    backoffSchedule 2 = [1000, 5000] ∧
    decide ((JournalService.format 3 (fun _ => .noText)).sleeps =
      backoffSchedule 2) = false := by
  decide

/-- C6 amended.  For each network-bound step sharing the retry discipline
(plain transcription, journal formatting, organization): a run in which
every attempt fails with a retryable condition issues exactly `maxRetries`
calls and returns `success:false` carrying the last error, rather than
retrying indefinitely or throwing.  The backoff delays 1000ms/5000ms/
30000ms (30000ms thereafter) are slept between consecutive attempts that
fail with an HTTP error status, a thrown exception, or (organization only)
malformed JSON; an empty or missing text on a successful HTTP response
retries immediately with no backoff sleep. -/
theorem retry_exhaustion_traces :
    (∀ (maxR : Nat) (outcomes : Nat → FetchText), 0 < maxR →
      (∀ i, (outcomes i).retryable) →
      (core.transcribe maxR outcomes).calls = maxR ∧
      (core.transcribe maxR outcomes).result =
        ⟨"", false, some (FetchText.failMsgT
          "No transcription text returned from API" (outcomes (maxR - 1)))⟩) ∧
    (∀ (maxR : Nat) (status : Nat → Nat) (body : Nat → String), 0 < maxR →
      core.transcribe maxR (fun i => .httpErr (status i) (body i)) =
        ⟨maxR, backoffSchedule (maxR - 1),
          ⟨"", false, some (httpErrMsg (status (maxR - 1)) (body (maxR - 1)))⟩⟩) ∧
    (∀ maxR : Nat, 0 < maxR →
      core.transcribe maxR (fun _ => .noText) =
        ⟨maxR, [], ⟨"", false, some "No transcription text returned from API"⟩⟩) ∧
    (∀ (maxR : Nat) (outcomes : Nat → FetchText), 0 < maxR →
      (∀ i, (outcomes i).retryable) →
      (JournalService.format maxR outcomes).calls = maxR ∧
      (JournalService.format maxR outcomes).result =
        ⟨"", false, some (FetchText.failMsgT
          "No text returned from API" (outcomes (maxR - 1)))⟩) ∧
    (∀ (maxR : Nat) (status : Nat → Nat) (body : Nat → String), 0 < maxR →
      JournalService.format maxR (fun i => .httpErr (status i) (body i)) =
        ⟨maxR, backoffSchedule (maxR - 1),
          ⟨"", false, some (httpErrMsg (status (maxR - 1)) (body (maxR - 1)))⟩⟩) ∧
    (∀ maxR : Nat, 0 < maxR →
      JournalService.format maxR (fun _ => .noText) =
        ⟨maxR, [], ⟨"", false, some "No text returned from API"⟩⟩) ∧
    (∀ (maxR : Nat) (tr : String) (outcomes : Nat → FetchOrg), 0 < maxR →
      (∀ i, (outcomes i).retryable) →
      (OrganizationService.organize maxR tr outcomes).calls = maxR ∧
      (OrganizationService.organize maxR tr outcomes).result =
        ⟨[], false, some (outcomes (maxR - 1)).failMsgO⟩) ∧
    (∀ (maxR : Nat) (tr : String) (status : Nat → Nat) (body : Nat → String),
      0 < maxR →
      OrganizationService.organize maxR tr (fun i => .httpErr (status i) (body i)) =
        ⟨maxR, backoffSchedule (maxR - 1),
          ⟨[], false, some (httpErrMsg (status (maxR - 1)) (body (maxR - 1)))⟩⟩) ∧
    (∀ (maxR : Nat) (tr : String), 0 < maxR →
      OrganizationService.organize maxR tr (fun _ => .badJson) =
        ⟨maxR, backoffSchedule (maxR - 1),
          ⟨[], false, some "Invalid JSON response from AI"⟩⟩) ∧
    (∀ (maxR : Nat) (tr : String), 0 < maxR →
      OrganizationService.organize maxR tr (fun _ => .noText) =
        ⟨maxR, [], ⟨[], false, some "No text returned from API"⟩⟩) := by
  refine ⟨?_, ?_, ?_, ?_, ?_, ?_, ?_, ?_, ?_, ?_⟩
  · intro maxR outcomes hm hr
    have hstep : ∀ i,
        (fun i => core.classifyTranscribe (outcomes i)) i =
            StepClass.retrySleep (FetchText.failMsgT
              "No transcription text returned from API" (outcomes i)) ∨
          (fun i => core.classifyTranscribe (outcomes i)) i =
            StepClass.retryFast (FetchText.failMsgT
              "No transcription text returned from API" (outcomes i)) := by
      intro i
      cases h : outcomes i with
      | httpErr s b => exact Or.inl (by simp [core.classifyTranscribe, FetchText.failMsgT, h])
      | noText => exact Or.inr (by simp [core.classifyTranscribe, FetchText.failMsgT, h])
      | ok t => exact absurd (hr i) (by simp [h, FetchText.retryable])
      | thrown m => exact Or.inl (by simp [core.classifyTranscribe, FetchText.failMsgT, h])
    have h := retryLoop_retry_all (fun i => core.classifyTranscribe (outcomes i))
      (fun e => ⟨"", false, some e⟩) maxR
      (fun i => FetchText.failMsgT "No transcription text returned from API" (outcomes i))
      hstep hm
    exact ⟨h.1, h.2⟩
  · intro maxR status body hm
    have hstep : ∀ i,
        (fun i => core.classifyTranscribe (.httpErr (status i) (body i))) i =
          StepClass.retrySleep (httpErrMsg (status i) (body i)) := by
      intro i; simp [core.classifyTranscribe]
    have h := retryLoop_sleep_all
      (fun i => core.classifyTranscribe (.httpErr (status i) (body i)))
      (fun e => ⟨"", false, some e⟩) maxR
      (fun i => httpErrMsg (status i) (body i)) hstep hm
    simpa [core.transcribe] using h
  · intro maxR hm
    have hstep : ∀ i,
        (fun _ : Nat => core.classifyTranscribe .noText) i =
          StepClass.retryFast ((fun _ : Nat =>
            "No transcription text returned from API") i) := by
      intro i; simp [core.classifyTranscribe]
    have h := retryLoop_fast_all (fun _ => core.classifyTranscribe .noText)
      (fun e => ⟨"", false, some e⟩) maxR
      (fun _ => "No transcription text returned from API") hstep hm
    simpa [core.transcribe] using h
  · intro maxR outcomes hm hr
    have hstep : ∀ i,
        (fun i => JournalService.classifyFormat (outcomes i)) i =
            StepClass.retrySleep (FetchText.failMsgT
              "No text returned from API" (outcomes i)) ∨
          (fun i => JournalService.classifyFormat (outcomes i)) i =
            StepClass.retryFast (FetchText.failMsgT
              "No text returned from API" (outcomes i)) := by
      intro i
      cases h : outcomes i with
      | httpErr s b => exact Or.inl (by simp [JournalService.classifyFormat, FetchText.failMsgT, h])
      | noText => exact Or.inr (by simp [JournalService.classifyFormat, FetchText.failMsgT, h])
      | ok t => exact absurd (hr i) (by simp [h, FetchText.retryable])
      | thrown m => exact Or.inl (by simp [JournalService.classifyFormat, FetchText.failMsgT, h])
    have h := retryLoop_retry_all (fun i => JournalService.classifyFormat (outcomes i))
      (fun e => ⟨"", false, some e⟩) maxR
      (fun i => FetchText.failMsgT "No text returned from API" (outcomes i))
      hstep hm
    exact ⟨h.1, h.2⟩
  · intro maxR status body hm
    have hstep : ∀ i,
        (fun i => JournalService.classifyFormat (.httpErr (status i) (body i))) i =
          StepClass.retrySleep (httpErrMsg (status i) (body i)) := by
      intro i; simp [JournalService.classifyFormat]
    have h := retryLoop_sleep_all
      (fun i => JournalService.classifyFormat (.httpErr (status i) (body i)))
      (fun e => ⟨"", false, some e⟩) maxR
      (fun i => httpErrMsg (status i) (body i)) hstep hm
    simpa [JournalService.format] using h
  · intro maxR hm
    have hstep : ∀ i,
        (fun _ : Nat => JournalService.classifyFormat .noText) i =
          StepClass.retryFast ((fun _ : Nat => "No text returned from API") i) := by
      intro i; simp [JournalService.classifyFormat]
    have h := retryLoop_fast_all (fun _ => JournalService.classifyFormat .noText)
      (fun e => ⟨"", false, some e⟩) maxR
      (fun _ => "No text returned from API") hstep hm
    simpa [JournalService.format] using h
  · intro maxR tr outcomes hm hr
    have hstep : ∀ i,
        (fun i => OrganizationService.classifyOrganize tr (outcomes i)) i =
            StepClass.retrySleep (outcomes i).failMsgO ∨
          (fun i => OrganizationService.classifyOrganize tr (outcomes i)) i =
            StepClass.retryFast (outcomes i).failMsgO := by
      intro i
      cases h : outcomes i with
      | httpErr s b => exact Or.inl (by simp [OrganizationService.classifyOrganize, FetchOrg.failMsgO, h])
      | noText => exact Or.inr (by simp [OrganizationService.classifyOrganize, FetchOrg.failMsgO, h])
      | badJson => exact Or.inl (by simp [OrganizationService.classifyOrganize, FetchOrg.failMsgO, h])
      | ok xs => exact absurd (hr i) (by simp [h, FetchOrg.retryable])
      | thrown m => exact Or.inl (by simp [OrganizationService.classifyOrganize, FetchOrg.failMsgO, h])
    have h := retryLoop_retry_all
      (fun i => OrganizationService.classifyOrganize tr (outcomes i))
      (fun e => ⟨[], false, some e⟩) maxR (fun i => (outcomes i).failMsgO)
      hstep hm
    exact ⟨h.1, h.2⟩
  · intro maxR tr status body hm
    have hstep : ∀ i,
        (fun i => OrganizationService.classifyOrganize tr
            (.httpErr (status i) (body i))) i =
          StepClass.retrySleep (httpErrMsg (status i) (body i)) := by
      intro i; simp [OrganizationService.classifyOrganize]
    have h := retryLoop_sleep_all
      (fun i => OrganizationService.classifyOrganize tr (.httpErr (status i) (body i)))
      (fun e => ⟨[], false, some e⟩) maxR
      (fun i => httpErrMsg (status i) (body i)) hstep hm
    simpa [OrganizationService.organize] using h
  · intro maxR tr hm
    have hstep : ∀ i,
        (fun _ : Nat => OrganizationService.classifyOrganize tr .badJson) i =
          StepClass.retrySleep ((fun _ : Nat =>
            "Invalid JSON response from AI") i) := by
      intro i; simp [OrganizationService.classifyOrganize]
    have h := retryLoop_sleep_all
      (fun _ => OrganizationService.classifyOrganize tr .badJson)
      (fun e => ⟨[], false, some e⟩) maxR
      (fun _ => "Invalid JSON response from AI") hstep hm
    simpa [OrganizationService.organize] using h
  · intro maxR tr hm
    have hstep : ∀ i,
        (fun _ : Nat => OrganizationService.classifyOrganize tr .noText) i =
          StepClass.retryFast ((fun _ : Nat => "No text returned from API") i) := by
      intro i; simp [OrganizationService.classifyOrganize]
    have h := retryLoop_fast_all
      (fun _ => OrganizationService.classifyOrganize tr .noText)
      (fun e => ⟨[], false, some e⟩) maxR
      (fun _ => "No text returned from API") hstep hm
    simpa [OrganizationService.organize] using h

theorem retry_exhaustion_traces_witness :
    core.transcribe 3 (fun _ => .httpErr 500 "boom") =
      ⟨3, [1000, 5000], ⟨"", false, some "API error: 500 - boom"⟩⟩ ∧
    (OrganizationService.organize 2 "t" (fun _ => .badJson)).calls = 2 ∧
    JournalService.format 2 (fun _ => .thrown "fetch failed") =
      ⟨2, [1000], ⟨"", false, some "fetch failed"⟩⟩ := by
  obtain ⟨c1, c2, c3, c4, c5, c6, c7, c8, c9, c10⟩ := retry_exhaustion_traces
  refine ⟨?_, ?_, ?_⟩
  · have h := c2 3 (fun _ => 500) (fun _ => "boom") (by decide)
    have hsch : backoffSchedule 2 = [1000, 5000] := by decide
    simpa [hsch] using h
  · have h := c9 2 "t" (by decide)
    rw [h]
  · have h := c4 2 (fun _ => .thrown "fetch failed") (by decide)
      (fun i => by simp [FetchText.retryable])
    have hcalls := h.1
    have hres := h.2
    have : JournalService.format 2 (fun _ => .thrown "fetch failed") =
        ⟨(JournalService.format 2 (fun _ => .thrown "fetch failed")).calls,
          (JournalService.format 2 (fun _ => .thrown "fetch failed")).sleeps,
          (JournalService.format 2 (fun _ => .thrown "fetch failed")).result⟩ := rfl
    rw [this, hcalls, hres]
    decide

/-! ## Claim C2 -/

/-- C2 fails on the code: processing a recording against a fresh ledger
(no `voiceMemo` entry yet), the failure path copies the file to the failed
directory but `markJobFailed` throws a `TypeError` (caught and only
logged), so the ledger is left with *no* terminal state for the filename. -/
theorem failed_recording_ledger_commit_lost :
    markJobFailed ⟨[]⟩ "voiceMemo" "fail.m4a"
      "Transcription failed: API error: 500 - boom" = none ∧
    VoiceMemoJob.processFile ⟨[]⟩ "/v/fail.m4a"
        ⟨"", false, some "API error: 500 - boom", none, none, none, none⟩
        ⟨[], true, none⟩ (fun _ => ⟨0, 0, true, []⟩) ⟨"", true, none⟩
        ⟨true, none, false, none⟩ =
      ⟨[.transcribeFile, .archiveFailedCall], [], ⟨[]⟩⟩ ∧
    recordedTerminal ⟨[]⟩ "voiceMemo" "fail.m4a" = false := by
  decide

/-! ## Claim C3 -/

/-- C3 fails on the code: `VoiceMemoJob.processFile` never consults
`isGarbage` and has no invalid-archive path at all — for a transcription
result flagged as garbage it still runs journal formatting and destination
sync, archives the file to the processed directory, and commits
`completed`; no branch of the orchestrator ever issues an archive-invalid
call. -/
theorem garbage_recording_not_gated :
    (∀ (st : AppState) (filePath : String) (tr : TranscriptionResultQG)
      (orgR : OrganizationResult) (syncF : List OrgItem → SyncResult)
      (fmtR : JournalFormatResult) (jSyncR : JournalSyncResult),
      ((VoiceMemoJob.processFile st filePath tr orgR syncF fmtR
        jSyncR).calls.contains .archiveInvalidCall) = false) ∧
    VoiceMemoJob.processFile ⟨[]⟩ "/v/noise.m4a"
        ⟨"hello there", true, none, some 15, some true, some "mostly silence",
          some .journal⟩
        ⟨[], true, none⟩ (fun _ => ⟨0, 0, true, []⟩)
        ⟨"hello there", true, none⟩ ⟨true, some 7, false, none⟩ =
      ⟨[.transcribeFile, .formatCall, .journalSyncCall, .archiveProcessed], [],
        ⟨[("voiceMemo", .obj [("noise.m4a", .str "completed")])]⟩⟩ := by
  constructor
  · intro st filePath tr orgR syncF fmtR jSyncR
    dsimp only [VoiceMemoJob.processFile, VoiceMemoJob.onFailure]
    repeat' split
    all_goals rfl
  · decide

/-! ## Claim C7 -/

/-- Every item submitted to the destination store passed validation. -/
theorem sync_submitted_validated (schema : NotionSchema)
    (createOk : OrgItem → Bool) (createErr : OrgItem → String) :
    ∀ (items : List OrgItem) (it : OrgItem),
      it ∈ (NotionSyncService.sync schema createOk createErr items).submitted →
      NotionSyncService.validateItem schema it = true := by
  intro items
  induction items with
  | nil => intro it h; simp [NotionSyncService.sync] at h
  | cons a rest ih =>
    intro it h
    simp only [NotionSyncService.sync] at h
    by_cases hv : NotionSyncService.validateItem schema a = true
    · by_cases hc : createOk a = true
      · simp only [hv, if_true, hc] at h
        rcases List.mem_cons.mp h with rfl | h
        · exact hv
        · exact ih it h
      · simp only [hv, if_true, Bool.not_eq_true] at h
        rw [if_neg (by simp [hc])] at h
        rcases List.mem_cons.mp h with rfl | h
        · exact hv
        · exact ih it h
    · rw [if_neg hv] at h
      exact ih it h

/-- C7.  An extracted TODO item whose priority is not in the schema's
priority enumeration is never submitted to the destination store (zero
create calls, hence never retried), is counted in `itemsFailed` with an
error entry recorded, and leaves the processing of sibling items
completely unchanged (same submissions, same created count, same overall
success flag). -/
theorem invalid_item_never_submitted (schema : NotionSchema)
    (createOk : OrgItem → Bool) (createErr : OrgItem → String)
    (xs ys : List OrgItem) (bad : OrgItem)
    (hbadT : bad.type = .todo)
    (hbadP : schema.priorities.contains bad.priority = false) :
    (NotionSyncService.sync schema createOk createErr
        (xs ++ bad :: ys)).submitted =
      (NotionSyncService.sync schema createOk createErr (xs ++ ys)).submitted ∧
    (NotionSyncService.sync schema createOk createErr
        (xs ++ bad :: ys)).res.itemsCreated =
      (NotionSyncService.sync schema createOk createErr
        (xs ++ ys)).res.itemsCreated ∧
    (NotionSyncService.sync schema createOk createErr
        (xs ++ bad :: ys)).res.itemsFailed =
      (NotionSyncService.sync schema createOk createErr
        (xs ++ ys)).res.itemsFailed + 1 ∧
    (NotionSyncService.sync schema createOk createErr
        (xs ++ bad :: ys)).res.success =
      (NotionSyncService.sync schema createOk createErr (xs ++ ys)).res.success ∧
    ("Invalid item: " ++ bad.title) ∈
      (NotionSyncService.sync schema createOk createErr
        (xs ++ bad :: ys)).res.errors ∧
    (∀ it ∈ (NotionSyncService.sync schema createOk createErr
        (xs ++ bad :: ys)).submitted,
      NotionSyncService.validateItem schema it = true) := by
  have hvbad : NotionSyncService.validateItem schema bad = false := by
    simp only [NotionSyncService.validateItem, hbadT]
    exact hbadP
  have key : ∀ xs : List OrgItem,
      (NotionSyncService.sync schema createOk createErr
          (xs ++ bad :: ys)).submitted =
        (NotionSyncService.sync schema createOk createErr (xs ++ ys)).submitted ∧
      (NotionSyncService.sync schema createOk createErr
          (xs ++ bad :: ys)).res.itemsCreated =
        (NotionSyncService.sync schema createOk createErr
          (xs ++ ys)).res.itemsCreated ∧
      (NotionSyncService.sync schema createOk createErr
          (xs ++ bad :: ys)).res.itemsFailed =
        (NotionSyncService.sync schema createOk createErr
          (xs ++ ys)).res.itemsFailed + 1 ∧
      (NotionSyncService.sync schema createOk createErr
          (xs ++ bad :: ys)).res.success =
        (NotionSyncService.sync schema createOk createErr
          (xs ++ ys)).res.success ∧
      ("Invalid item: " ++ bad.title) ∈
        (NotionSyncService.sync schema createOk createErr
          (xs ++ bad :: ys)).res.errors := by
    intro xs
    induction xs with
    | nil =>
      simp only [List.nil_append, NotionSyncService.sync]
      rw [if_neg (by simp [hvbad])]
      exact ⟨rfl, rfl, rfl, rfl, List.mem_cons_self _ _⟩
    | cons a rest ih =>
      obtain ⟨ihs, ihc, ihf, ihsu, ihe⟩ := ih
      simp only [List.cons_append, NotionSyncService.sync]
      by_cases hv : NotionSyncService.validateItem schema a = true
      · by_cases hc : createOk a = true
        · simp [hv, hc, ihs, ihc, ihf, ihsu, ihe]
        · simp [hv, hc, ihs, ihc, ihf, ihsu, ihe, List.mem_cons]
      · simp [hv, ihs, ihc, ihf, ihsu, ihe, List.mem_cons]
  obtain ⟨hs, hc2, hf, hsu, he⟩ := key xs
  exact ⟨hs, hc2, hf, hsu, he,
    fun it h => sync_submitted_validated schema createOk createErr _ it h⟩

theorem invalid_item_never_submitted_witness :
    (NotionSyncService.sync schemaAS (fun _ => true) createErrK
        [itemA, ⟨.todo, "bad", none, none, "urgent", none⟩, itemB]).submitted =
      (NotionSyncService.sync schemaAS (fun _ => true) createErrK
        [itemA, itemB]).submitted ∧
    (NotionSyncService.sync schemaAS (fun _ => true) createErrK
        [itemA, ⟨.todo, "bad", none, none, "urgent", none⟩,
          itemB]).res.itemsFailed =
      (NotionSyncService.sync schemaAS (fun _ => true) createErrK
        [itemA, itemB]).res.itemsFailed + 1 ∧
    ("Invalid item: " ++ "bad") ∈
      (NotionSyncService.sync schemaAS (fun _ => true) createErrK
        [itemA, ⟨.todo, "bad", none, none, "urgent", none⟩,
          itemB]).res.errors := by
  have h := invalid_item_never_submitted schemaAS (fun _ => true) createErrK
    [itemA] [itemB] ⟨.todo, "bad", none, none, "urgent", none⟩
    (by decide) (by decide)
  exact ⟨h.1, h.2.2.1, h.2.2.2.2.1⟩

/-! ## Claim C4 -/

/-- C4 is false as stated: with two extracted items of which one is
created and one fails, the orchestrator's condition
`!success && itemsFailed === itemsCreated` fires (1 = 1), so the recording
is treated as a recording-level failure — archived to the failed
directory and recorded in the ledger's failed list — even though one item
was created. -/
theorem equal_counts_treated_as_total_failure_counterexample :
    (syncNotB [itemA, itemB]).itemsCreated = 1 ∧
    (syncNotB [itemA, itemB]).itemsFailed = 1 ∧
    (syncNotB [itemA, itemB]).success = false ∧
    VoiceMemoJob.processFile stVM "/v/two.m4a" trTodo orgTwo syncNotB
        fmtOkR jOkR =
      ⟨[.transcribeFile, .organizeCall, .notionSyncCall, .archiveFailedCall],
        [], ⟨[("voiceMemo", .obj [("failed", .arr ["two.m4a"])])]⟩⟩ ∧
    isJobProcessed ⟨[("voiceMemo", .obj [("failed", .arr ["two.m4a"])])]⟩
      "voiceMemo" "two.m4a" = false := by
  decide

/-- C4 amended.  On the TODO/NOTE path the recording is treated as a
recording-level failure exactly when the sync result has `success:false`
*and* `itemsFailed` equals `itemsCreated`; in every other case — in
particular the spec's example of 3 items with 2 created and 1 failed —
the recording is an overall success, archived as processed and committed
`completed`, with the number of failed items logged as a warning. -/
theorem sync_failure_condition (st : AppState) (filePath : String)
    (tr : TranscriptionResultQG) (orgR : OrganizationResult)
    (syncF : List OrgItem → SyncResult) (fmtR : JournalFormatResult)
    (jSyncR : JournalSyncResult)
    (htr : tr.success = true) (hi : detectIntent tr.text ≠ .journal)
    (horg : orgR.success = true) (hitems : orgR.items ≠ []) :
    ((syncF orgR.items).success = false ∧
        (syncF orgR.items).itemsFailed = (syncF orgR.items).itemsCreated →
      VoiceMemoJob.processFile st filePath tr orgR syncF fmtR jSyncR =
        VoiceMemoJob.onFailure st (lastPathComponent filePath)
          [.transcribeFile, .organizeCall, .notionSyncCall]
          "Notion sync failed completely") ∧
    (¬ ((syncF orgR.items).success = false ∧
        (syncF orgR.items).itemsFailed = (syncF orgR.items).itemsCreated) →
      VoiceMemoJob.processFile st filePath tr orgR syncF fmtR jSyncR =
        ⟨[.transcribeFile, .organizeCall, .notionSyncCall, .archiveProcessed],
          if 0 < (syncF orgR.items).itemsFailed then
            ["Sync completed with " ++ toString (syncF orgR.items).itemsFailed
              ++ " failure(s)"]
          else [],
          markJobCompleted st "voiceMemo" (lastPathComponent filePath)⟩) := by
  have hempty : orgR.items.isEmpty = false := by
    cases hI : orgR.items with
    | nil => exact absurd hI hitems
    | cons a l => rfl
  constructor
  · intro hcond
    cases hint : detectIntent tr.text with
    | journal => exact absurd hint hi
    | todo => simp [VoiceMemoJob.processFile, htr, hint, horg, hempty, hcond]
    | note => simp [VoiceMemoJob.processFile, htr, hint, horg, hempty, hcond]
  · intro hcond
    cases hint : detectIntent tr.text with
    | journal => exact absurd hint hi
    | todo => simp [VoiceMemoJob.processFile, htr, hint, horg, hempty, hcond]
    | note => simp [VoiceMemoJob.processFile, htr, hint, horg, hempty, hcond]

theorem sync_failure_condition_witness :
    VoiceMemoJob.processFile stVM "/v/three.m4a" trTodo orgThree syncNotC
        fmtOkR jOkR =
      ⟨[.transcribeFile, .organizeCall, .notionSyncCall, .archiveProcessed],
        ["Sync completed with 1 failure(s)"],
        markJobCompleted stVM "voiceMemo" "three.m4a"⟩ ∧
    (syncNotC orgThree.items).itemsCreated = 2 ∧
    (syncNotC orgThree.items).itemsFailed = 1 := by
  have h := (sync_failure_condition stVM "/v/three.m4a" trTodo orgThree
    syncNotC fmtOkR jOkR (by decide) (by decide) (by decide)
    (by decide)).2 (by decide)
  refine ⟨?_, by decide, by decide⟩
  rw [h]
  decide

/-! ## Claim C8 -/

/-- C8.  Journal sync keys the destination page by the local calendar date
of the recording timestamp: (1) for any store and any two timestamps with
equal local year/month/day components, syncing the first creates the day's
page and syncing the second appends to that same page (`isNewPage` false,
same page id, store unchanged); (2) at the example timestamps, Jan 10
09:00 and Jan 10 23:00 target the same page while Jan 11 00:05 creates a
different page (`isNewPage` true, distinct page id). -/
theorem journal_day_keying :
    (∀ (db : JournalDB) (t1 t2 : LocalDateTime),
      t1.year = t2.year → t1.month = t2.month → t1.day = t2.day →
      JournalNotionService.findTodayPage db
        (JournalNotionService.formatDateISO t1) = none →
      (JournalNotionService.syncEntry db t1).1.isNewPage = true ∧
      (JournalNotionService.syncEntry
        (JournalNotionService.syncEntry db t1).2 t2).1.isNewPage = false ∧
      (JournalNotionService.syncEntry
          (JournalNotionService.syncEntry db t1).2 t2).1.pageId =
        (JournalNotionService.syncEntry db t1).1.pageId ∧
      (JournalNotionService.syncEntry
          (JournalNotionService.syncEntry db t1).2 t2).2 =
        (JournalNotionService.syncEntry db t1).2) ∧
    (∀ db : JournalDB,
      JournalNotionService.findTodayPage db "2026-01-10" = none →
      JournalNotionService.findTodayPage db "2026-01-11" = none →
      (JournalNotionService.syncEntry db d0110a).1.isNewPage = true ∧
      (JournalNotionService.syncEntry
        (JournalNotionService.syncEntry db d0110a).2 d0110b).1.isNewPage =
          false ∧
      (JournalNotionService.syncEntry
          (JournalNotionService.syncEntry db d0110a).2 d0110b).1.pageId =
        (JournalNotionService.syncEntry db d0110a).1.pageId ∧
      (JournalNotionService.syncEntry
        (JournalNotionService.syncEntry
          (JournalNotionService.syncEntry db d0110a).2 d0110b).2
        d0111).1.isNewPage = true ∧
      (JournalNotionService.syncEntry
          (JournalNotionService.syncEntry
            (JournalNotionService.syncEntry db d0110a).2 d0110b).2
          d0111).1.pageId ≠
        (JournalNotionService.syncEntry db d0110a).1.pageId) := by
  constructor
  · intro db t1 t2 hy hm hd hfind
    have hkey : JournalNotionService.formatDateISO t2 =
        JournalNotionService.formatDateISO t1 := by
      unfold JournalNotionService.formatDateISO
      rw [hy, hm, hd]
    simp only [JournalNotionService.findTodayPage] at hfind
    simp [JournalNotionService.syncEntry, JournalNotionService.findTodayPage,
      hkey, hfind, alookup]
  · intro db h10 h11
    have hk1 : JournalNotionService.formatDateISO d0110a = "2026-01-10" := by
      decide
    have hk2 : JournalNotionService.formatDateISO d0110b = "2026-01-10" := by
      decide
    have hk3 : JournalNotionService.formatDateISO d0111 = "2026-01-11" := by
      decide
    have hne : ("2026-01-10" : String) ≠ "2026-01-11" := by decide
    simp only [JournalNotionService.findTodayPage] at h10 h11
    simp [JournalNotionService.syncEntry, JournalNotionService.findTodayPage,
      hk1, hk2, hk3, alookup, h10, h11, hne]

theorem journal_day_keying_witness :
    (JournalNotionService.syncEntry ⟨[], 0⟩ d0110a).1.isNewPage = true ∧
    (JournalNotionService.syncEntry
      (JournalNotionService.syncEntry ⟨[], 0⟩ d0110a).2 d0110b).1.isNewPage =
        false ∧
    (JournalNotionService.syncEntry
        (JournalNotionService.syncEntry
          (JournalNotionService.syncEntry ⟨[], 0⟩ d0110a).2 d0110b).2
        d0111).1.isNewPage = true := by
  have h := journal_day_keying.2 ⟨[], 0⟩ (by decide) (by decide)
  exact ⟨h.1, h.2.1, h.2.2.2.1⟩

/-! ## Claim C9 -/

/-- C9 is false as stated: a transcript with a leading TODO keyword is
routed to the TODO path, but the keyword is *not* stripped before the
text is handed downstream — `processTodoNoteEntry` receives the raw
transcript (stripping happens only on the JOURNAL path). -/
theorem route_strip_counterexample :
    routedText "Todo: buy milk" = (.todo, "Todo: buy milk") ∧
    stripPrefixKeyword "Todo: buy milk" = "buy milk" ∧
    decide ((routedText "Todo: buy milk").2 = "buy milk") = false := by
  decide

/-- C9 amended.  Intent routing is a pure function of the transcript: a
case-insensitive leading `todo`/`to do`/`to-do` keyword followed by a
comma/colon/period/whitespace delimiter routes to TODO and a leading
`note` keyword routes to NOTE — in both cases the transcript is handed
downstream *unstripped*; every other transcript routes to JOURNAL, where
the downstream text is the prefix-stripped transcript (a leading
`todo`/`note`/`journal` keyword with trailing `[,.:!?\s]*` removed); in
particular a trimmed transcript with no leading keyword at all is handed
through unchanged. -/
theorem route_and_handoff :
    (∀ s : String,
      todoKeywordMatch ((trimChars s.data).map Char.toLower) = true →
      routedText s = (.todo, s)) ∧
    (∀ s : String,
      todoKeywordMatch ((trimChars s.data).map Char.toLower) = false →
      noteKeywordMatch ((trimChars s.data).map Char.toLower) = true →
      routedText s = (.note, s)) ∧
    (∀ s : String,
      todoKeywordMatch ((trimChars s.data).map Char.toLower) = false →
      noteKeywordMatch ((trimChars s.data).map Char.toLower) = false →
      routedText s = (.journal, stripPrefixKeyword s)) ∧
    (∀ s : String, trimChars s.data = s.data →
      keywordLen (s.data.map Char.toLower) = none →
      todoKeywordMatch (s.data.map Char.toLower) = false →
      noteKeywordMatch (s.data.map Char.toLower) = false →
      routedText s = (.journal, s)) ∧
    routedText "Journal: dear diary" = (.journal, "dear diary") := by
  refine ⟨?_, ?_, ?_, ?_, by decide⟩
  · intro s h
    simp [routedText, detectIntent, h]
  · intro s h1 h2
    simp [routedText, detectIntent, h1, h2]
  · intro s h1 h2
    simp [routedText, detectIntent, h1, h2]
  · intro s
    obtain ⟨cs⟩ := s
    intro htrim hkw h1 h2
    simp [routedText, detectIntent, stripPrefixKeyword, htrim, hkw, h1, h2]

theorem route_and_handoff_witness :
    routedText "Todo: buy milk" = (.todo, "Todo: buy milk") ∧
    routedText "Note, the wifi password" = (.note, "Note, the wifi password") ∧
    routedText "had a great day" = (.journal, "had a great day") := by
  obtain ⟨h1, h2, _, h4, _⟩ := route_and_handoff
  exact ⟨h1 _ (by decide), h2 _ (by decide) (by decide),
    h4 _ (by decide) (by decide) (by decide) (by decide)⟩

end Astra
